import Mathlib

/-!
Verification of the `gt blocked` aggregation pipeline
(`internal/cmd/blocked.go`) of the gastown repository.

The pipeline queries one town-level store and one store per rig
concurrently, filters noise items per source, orders sources and items,
and computes a priority-bucketed summary.  Concurrency is modelled by
quantifying over the arrival order of per-source results (an arbitrary
permutation of the launched sources).  The standard-library slice sort
used at the two sorting sites is modelled by its documented contract:
it produces a permutation of its input in which no adjacent pair is
inverted under the comparator, and it is NOT guaranteed to be stable
(equal elements may be reversed; the stable variant of the primitive is
a distinct function that this code does not call).
-/

namespace Gastown

/-- Modelled from the spec: a blocked work item (`beads.Issue`; the beads
package itself is an external store interface).  Attributes per §3 of the
spec: identifier, title, integer priority, list of blocking identifiers. -/
structure Issue where
  id : String
  title : String
  priority : Int
  blockedBy : List String
deriving DecidableEq, Repr

/-- `BlockedSource` of blocked.go: blocked items from a single source.
A Go `nil` issue slice is modelled as `[]`; the `Error` field is the empty
string when the query succeeded, exactly as the Go zero value. -/
structure BlockedSource where
  name : String
  issues : List Issue
  error : String
deriving DecidableEq, Repr

/-- `BlockedSummary` of blocked.go.  The Go `map[string]int` is modelled as
an association list with insert-or-update semantics. -/
structure BlockedSummary where
  total : Nat
  bySource : List (String × Nat)
  p0Count : Nat
  p1Count : Nat
  p2Count : Nat
  p3Count : Nat
  p4Count : Nat
deriving DecidableEq, Repr

/-- `BlockedResult` of blocked.go. -/
structure BlockedResult where
  sources : List BlockedSource
  summary : BlockedSummary
  townRoot : String
deriving DecidableEq, Repr

/-- Does the character list `p` occur at the head of `l`?
(Building block for Go `strings.Contains`.) -/
def charsHasPre : List Char → List Char → Bool
  | _, [] => true
  | [], _ :: _ => false
  | c :: cs, p :: ps => c == p && charsHasPre cs ps

/-- Does the character list `p` occur anywhere inside `l`? -/
def charsContains (p : List Char) : List Char → Bool
  | [] => charsHasPre [] p
  | c :: cs => charsHasPre (c :: cs) p || charsContains p cs

/-- Go `strings.Contains s pat`. -/
def strContains (s pat : String) : Bool :=
  charsContains pat.data s.data

/-- The ephemeral-item marker substring checked by `filterWispsByID`. -/
def wispMarker : String := "-wisp-"

/-- `filterWispsByID` of blocked.go (lines 296-304): removes issues whose
ID contains `"-wisp-"`, written exactly as the Go append loop. -/
def filterWispsByID (issues : List Issue) : List Issue :=
  issues.foldl
    (fun filtered issue =>
      if !(strContains issue.id wispMarker) then filtered ++ [issue] else filtered)
    []

/-- Modelled from the spec: `filterWisps` (defined outside the provided
sources) drops any item whose identifier is a member of the known
ephemeral-item identifier set (§4.3 step 2). -/
def filterWisps (issues : List Issue) (wispIDs : List String) : List Issue :=
  issues.filter (fun issue => !(wispIDs.contains issue.id))

/-- Modelled from the spec: `filterFormulaScaffolds` (defined outside the
provided sources) drops any item whose identifier matches a
scaffold-placeholder naming convention tied to the formula names
(§4.3 step 1); the convention itself is supplied externally, so it is a
parameter `isScaffold`. -/
def filterFormulaScaffolds (isScaffold : List String → String → Bool)
    (issues : List Issue) (formulaNames : List String) : List Issue :=
  issues.filter (fun issue => !(isScaffold formulaNames issue.id))

/-- Decidable equality for `Except`, needed to derive it for `QueryData`. -/
instance exceptDecEq {ε α : Type} [DecidableEq ε] [DecidableEq α] :
    DecidableEq (Except ε α)
  | Except.error e, Except.error f =>
      if h : e = f then isTrue (by rw [h])
      else isFalse (by intro hh; cases hh; exact h rfl)
  | Except.error _, Except.ok _ => isFalse (by intro h; cases h)
  | Except.ok _, Except.error _ => isFalse (by intro h; cases h)
  | Except.ok a, Except.ok b =>
      if h : a = b then isTrue (by rw [h])
      else isFalse (by intro hh; cases hh; exact h rfl)

/-- Data obtained from one source's store: the outcome of the blocked-items
query plus the two externally supplied exclusion sets. -/
structure QueryData where
  blocked : Except String (List Issue)
  formulaNames : List String
  wispIDs : List String
deriving DecidableEq, Repr

/-- A discovered rig: a name and its store's data. -/
structure RigData where
  name : String
  data : QueryData
deriving DecidableEq, Repr

/-- The filter pipeline applied to a successful query result
(blocked.go lines 126-130 / 149-153). -/
def pipeline (isScaffold : List String → String → Bool)
    (formulaNames wispIDs : List String) (issues : List Issue) : List Issue :=
  filterWispsByID (filterWisps (filterFormulaScaffolds isScaffold issues formulaNames) wispIDs)

/-- Construction of one `BlockedSource` by a fan-out task
(blocked.go lines 122-131 / 145-154). -/
def mkSource (isScaffold : List String → String → Bool)
    (name : String) (qd : QueryData) : BlockedSource :=
  match qd.blocked with
  | Except.error e => { name := name, issues := [], error := e }
  | Except.ok issues =>
      { name := name
        issues := pipeline isScaffold qd.formulaNames qd.wispIDs issues
        error := "" }

/-- The rig-filter step of `runBlocked` (blocked.go lines 94-106): with an
empty filter all rigs are kept; otherwise the first rig with the requested
name is kept (the Go loop breaks at the first match), and if none matches
the command fails with a descriptive error. -/
def selectRigs (rigs : List RigData) (rigFilter : String) :
    Except String (List RigData) :=
  if rigFilter = "" then Except.ok rigs
  else
    match rigs.find? (fun r => r.name == rigFilter) with
    | some r => Except.ok [r]
    | none => Except.error ("rig not found: " ++ rigFilter)

/-- The name given to the town source. -/
def townName : String := "town"

/-- The comparator passed to the source sort (blocked.go lines 161-169). -/
def sourceLess (a b : BlockedSource) : Bool :=
  if a.name == townName then true
  else if b.name == townName then false
  else decide (a.name < b.name)

/-- The comparator passed to the per-source item sort
(blocked.go lines 171-175). -/
def issueLess (a b : Issue) : Bool :=
  decide (a.priority < b.priority)

/-- A list in which no adjacent pair is inverted under the comparator:
the ordering guarantee of the standard-library slice sort. -/
def SortedByLess (less : α → α → Bool) (l : List α) : Prop :=
  List.Chain' (fun a b => less b a = false) l

/-- Contract of the standard-library slice sort used by blocked.go: the
output is a permutation of the input and is ordered under the comparator.
Deliberately NOT required: stability (the library documents that equal
elements may be reversed from their original order). -/
def SortSliceSpec (less : α → α → Bool) (input output : List α) : Prop :=
  List.Perm input output ∧ SortedByLess less output

/-- Kernel-reducible decidability for `List.Chain` (the library instance is
tactic-defined and does not evaluate inside `decide`). -/
def decChain {α : Type} (r : α → α → Prop) [DecidableRel r] (a : α) :
    (l : List α) → Decidable (List.Chain r a l)
  | [] => isTrue List.Chain.nil
  | b :: l =>
      @decidable_of_iff _ _ List.chain_cons.symm
        (@instDecidableAnd _ _ _ (decChain r b l))

/-- Kernel-reducible decidability for `List.Chain'`. -/
instance decChain' {α : Type} (r : α → α → Prop) [DecidableRel r] :
    (l : List α) → Decidable (List.Chain' r l)
  | [] => isTrue trivial
  | a :: l => decChain r a l

instance {α : Type} (less : α → α → Bool) (l : List α) :
    Decidable (SortedByLess less l) :=
  inferInstanceAs (Decidable (List.Chain' (fun a b => less b a = false) l))

instance {α : Type} [DecidableEq α] (less : α → α → Bool) (i o : List α) :
    Decidable (SortSliceSpec less i o) :=
  inferInstanceAs (Decidable (List.Perm i o ∧ SortedByLess less o))

/-- The empty summary `runBlocked` starts from (blocked.go lines 177-179). -/
def emptySummary : BlockedSummary :=
  { total := 0, bySource := [], p0Count := 0, p1Count := 0, p2Count := 0
    p3Count := 0, p4Count := 0 }

/-- Go map assignment `m[k] = v` on the association-list model. -/
def mapInsert : List (String × Nat) → String → Nat → List (String × Nat)
  | [], k, v => [(k, v)]
  | (k', v') :: rest, k, v =>
      if k' == k then (k, v) :: rest else (k', v') :: mapInsert rest k v

/-- Go map lookup `m[k]` on the association-list model. -/
def lookupName : List (String × Nat) → String → Option Nat
  | [], _ => none
  | (k', v') :: rest, k => if k' == k then some v' else lookupName rest k

/-- The `switch issue.Priority` of blocked.go lines 184-196. -/
def bucketAdd (s : BlockedSummary) (p : Int) : BlockedSummary :=
  if p = 0 then { s with p0Count := s.p0Count + 1 }
  else if p = 1 then { s with p1Count := s.p1Count + 1 }
  else if p = 2 then { s with p2Count := s.p2Count + 1 }
  else if p = 3 then { s with p3Count := s.p3Count + 1 }
  else if p = 4 then { s with p4Count := s.p4Count + 1 }
  else s

/-- One iteration of the summary loop of blocked.go lines 180-198. -/
def addSource (s : BlockedSummary) (src : BlockedSource) : BlockedSummary :=
  let count := src.issues.length
  let s1 := { s with
    total := s.total + count
    bySource := mapInsert s.bySource src.name count }
  src.issues.foldl (fun acc issue => bucketAdd acc issue.priority) s1

/-- The summary computation of blocked.go lines 177-198. -/
def computeSummary (sources : List BlockedSource) : BlockedSummary :=
  sources.foldl addSource emptySummary

/-- The multiset of sources handed to the fan-out executor: the town task
is launched only when no rig filter is active (blocked.go line 112), plus
one task per selected rig (blocked.go lines 136-157). -/
def launchedSources (isScaffold : List String → String → Bool)
    (townQD : QueryData) (selected : List RigData) (rigFilter : String) :
    List BlockedSource :=
  (if rigFilter = "" then [mkSource isScaffold townName townQD] else []) ++
    selected.map (fun r => mkSource isScaffold r.name r.data)

/-- Relation between a source before and after the per-source item sort of
blocked.go lines 171-175: name and error untouched, issues sorted per the
slice-sort contract. -/
def IssuesSortRel (s t : BlockedSource) : Prop :=
  t.name = s.name ∧ t.error = s.error ∧ SortSliceSpec issueLess s.issues t.issues

/-- Relational model of `runBlocked` after rig discovery (blocked.go lines
94-204): rig selection, concurrent fan-out (the gathered list is an
arbitrary permutation of the launched sources, covering every possible
completion order), source sort, per-source item sort, and summary. -/
def RunBlocked (isScaffold : List String → String → Bool)
    (townQD : QueryData) (rigs : List RigData) (rigFilter : String)
    (townRoot : String) (result : BlockedResult) : Prop :=
  ∃ (selected : List RigData) (gathered sortedSources : List BlockedSource),
    selectRigs rigs rigFilter = Except.ok selected ∧
    List.Perm (launchedSources isScaffold townQD selected rigFilter) gathered ∧
    SortSliceSpec sourceLess gathered sortedSources ∧
    List.Forall₂ IssuesSortRel sortedSources result.sources ∧
    result.summary = computeSummary result.sources ∧
    result.townRoot = townRoot

/-- The title truncation of `printBlockedHuman` (blocked.go lines 253-256).
Go measures bytes; titles are modelled at character granularity, which
coincides for single-byte characters. -/
def truncateTitle (title : String) : String :=
  if title.length > 60 then String.mk (title.data.take 57) ++ "..." else title

/-! ### The append-loop of `filterWispsByID` is a `List.filter` -/

lemma foldl_if_append_eq_filter {α : Type} (p : α → Bool) :
    ∀ (l acc : List α),
      l.foldl (fun acc x => if p x then acc ++ [x] else acc) acc =
        acc ++ l.filter p := by
  intro l
  induction l with
  | nil => intro acc; simp
  | cons a l ih =>
      intro acc
      by_cases h : p a
      · simp [h, ih, List.filter_cons]
      · simp [h, ih, List.filter_cons]

lemma filterWispsByID_eq_filter (issues : List Issue) :
    filterWispsByID issues =
      issues.filter (fun issue => !(strContains issue.id wispMarker)) := by
  unfold filterWispsByID
  rw [foldl_if_append_eq_filter]
  simp

/-- Claim C5: the ephemeral-item substring filter is idempotent, and its
output contains exactly the input items whose identifier does not contain
the marker substring `"-wisp-"` (in input order). -/
theorem c5_wisp_filter_idempotent_exact :
    ∀ issues : List Issue,
      filterWispsByID (filterWispsByID issues) = filterWispsByID issues ∧
      filterWispsByID issues =
        issues.filter (fun issue => !(strContains issue.id wispMarker)) := by
  intro issues
  refine ⟨?_, filterWispsByID_eq_filter issues⟩
  simp [filterWispsByID_eq_filter, List.filter_filter]

/-- Claim C9: `filterWispsByID` returns a subsequence of its input: every
survivor was present, in the same relative order, with no duplication. -/
theorem c9_wisp_filter_sublist :
    ∀ issues : List Issue, List.Sublist (filterWispsByID issues) issues := by
  intro issues
  rw [filterWispsByID_eq_filter]
  exact List.filter_sublist issues

/-! ### Summary computation lemmas -/

lemma bucketAdd_total (s : BlockedSummary) (p : Int) :
    (bucketAdd s p).total = s.total := by
  unfold bucketAdd; split_ifs <;> rfl

lemma bucketAdd_bySource (s : BlockedSummary) (p : Int) :
    (bucketAdd s p).bySource = s.bySource := by
  unfold bucketAdd; split_ifs <;> rfl

lemma bucketAdd_p0 (s : BlockedSummary) (p : Int) :
    (bucketAdd s p).p0Count = s.p0Count + (if p = 0 then 1 else 0) := by
  unfold bucketAdd; split_ifs <;> simp

lemma bucketAdd_p1 (s : BlockedSummary) (p : Int) :
    (bucketAdd s p).p1Count = s.p1Count + (if p = 1 then 1 else 0) := by
  unfold bucketAdd; split_ifs <;> simp_all

lemma bucketAdd_p2 (s : BlockedSummary) (p : Int) :
    (bucketAdd s p).p2Count = s.p2Count + (if p = 2 then 1 else 0) := by
  unfold bucketAdd; split_ifs <;> simp_all

lemma bucketAdd_p3 (s : BlockedSummary) (p : Int) :
    (bucketAdd s p).p3Count = s.p3Count + (if p = 3 then 1 else 0) := by
  unfold bucketAdd; split_ifs <;> simp_all

lemma bucketAdd_p4 (s : BlockedSummary) (p : Int) :
    (bucketAdd s p).p4Count = s.p4Count + (if p = 4 then 1 else 0) := by
  unfold bucketAdd; split_ifs <;> simp_all

lemma foldlBuckets_total (issues : List Issue) :
    ∀ s : BlockedSummary,
      (issues.foldl (fun acc issue => bucketAdd acc issue.priority) s).total =
        s.total := by
  induction issues with
  | nil => intro s; rfl
  | cons i l ih => intro s; simp [List.foldl_cons, ih, bucketAdd_total]

lemma foldlBuckets_bySource (issues : List Issue) :
    ∀ s : BlockedSummary,
      (issues.foldl (fun acc issue => bucketAdd acc issue.priority) s).bySource =
        s.bySource := by
  induction issues with
  | nil => intro s; rfl
  | cons i l ih => intro s; simp [List.foldl_cons, ih, bucketAdd_bySource]

lemma foldlBuckets_p0 (issues : List Issue) :
    ∀ s : BlockedSummary,
      (issues.foldl (fun acc issue => bucketAdd acc issue.priority) s).p0Count =
        s.p0Count + issues.countP (fun issue => decide (issue.priority = 0)) := by
  induction issues with
  | nil => intro s; simp
  | cons i l ih =>
      intro s
      simp only [List.foldl_cons, ih, bucketAdd_p0, List.countP_cons,
        decide_eq_true_eq]
      split_ifs <;> omega

lemma foldlBuckets_p1 (issues : List Issue) :
    ∀ s : BlockedSummary,
      (issues.foldl (fun acc issue => bucketAdd acc issue.priority) s).p1Count =
        s.p1Count + issues.countP (fun issue => decide (issue.priority = 1)) := by
  induction issues with
  | nil => intro s; simp
  | cons i l ih =>
      intro s
      simp only [List.foldl_cons, ih, bucketAdd_p1, List.countP_cons,
        decide_eq_true_eq]
      split_ifs <;> omega

lemma foldlBuckets_p2 (issues : List Issue) :
    ∀ s : BlockedSummary,
      (issues.foldl (fun acc issue => bucketAdd acc issue.priority) s).p2Count =
        s.p2Count + issues.countP (fun issue => decide (issue.priority = 2)) := by
  induction issues with
  | nil => intro s; simp
  | cons i l ih =>
      intro s
      simp only [List.foldl_cons, ih, bucketAdd_p2, List.countP_cons,
        decide_eq_true_eq]
      split_ifs <;> omega

lemma foldlBuckets_p3 (issues : List Issue) :
    ∀ s : BlockedSummary,
      (issues.foldl (fun acc issue => bucketAdd acc issue.priority) s).p3Count =
        s.p3Count + issues.countP (fun issue => decide (issue.priority = 3)) := by
  induction issues with
  | nil => intro s; simp
  | cons i l ih =>
      intro s
      simp only [List.foldl_cons, ih, bucketAdd_p3, List.countP_cons,
        decide_eq_true_eq]
      split_ifs <;> omega

lemma foldlBuckets_p4 (issues : List Issue) :
    ∀ s : BlockedSummary,
      (issues.foldl (fun acc issue => bucketAdd acc issue.priority) s).p4Count =
        s.p4Count + issues.countP (fun issue => decide (issue.priority = 4)) := by
  induction issues with
  | nil => intro s; simp
  | cons i l ih =>
      intro s
      simp only [List.foldl_cons, ih, bucketAdd_p4, List.countP_cons,
        decide_eq_true_eq]
      split_ifs <;> omega

lemma addSource_total (s : BlockedSummary) (src : BlockedSource) :
    (addSource s src).total = s.total + src.issues.length := by
  simp [addSource, foldlBuckets_total]

lemma addSource_bySource (s : BlockedSummary) (src : BlockedSource) :
    (addSource s src).bySource = mapInsert s.bySource src.name src.issues.length := by
  simp [addSource, foldlBuckets_bySource]

lemma addSource_p0 (s : BlockedSummary) (src : BlockedSource) :
    (addSource s src).p0Count =
      s.p0Count + src.issues.countP (fun issue => decide (issue.priority = 0)) := by
  simp [addSource, foldlBuckets_p0]

lemma addSource_p1 (s : BlockedSummary) (src : BlockedSource) :
    (addSource s src).p1Count =
      s.p1Count + src.issues.countP (fun issue => decide (issue.priority = 1)) := by
  simp [addSource, foldlBuckets_p1]

lemma addSource_p2 (s : BlockedSummary) (src : BlockedSource) :
    (addSource s src).p2Count =
      s.p2Count + src.issues.countP (fun issue => decide (issue.priority = 2)) := by
  simp [addSource, foldlBuckets_p2]

lemma addSource_p3 (s : BlockedSummary) (src : BlockedSource) :
    (addSource s src).p3Count =
      s.p3Count + src.issues.countP (fun issue => decide (issue.priority = 3)) := by
  simp [addSource, foldlBuckets_p3]

lemma addSource_p4 (s : BlockedSummary) (src : BlockedSource) :
    (addSource s src).p4Count =
      s.p4Count + src.issues.countP (fun issue => decide (issue.priority = 4)) := by
  simp [addSource, foldlBuckets_p4]

/-- All items of a report, in source order. -/
def allIssues (sources : List BlockedSource) : List Issue :=
  (sources.map (fun src => src.issues)).flatten

lemma foldl_addSource_total (l : List BlockedSource) :
    ∀ s : BlockedSummary,
      (l.foldl addSource s).total =
        s.total + (l.map (fun src => src.issues.length)).sum := by
  induction l with
  | nil => intro s; simp
  | cons src l ih =>
      intro s
      simp only [List.foldl_cons, ih, addSource_total, List.map_cons, List.sum_cons]
      omega

lemma foldl_addSource_p0 (l : List BlockedSource) :
    ∀ s : BlockedSummary,
      (l.foldl addSource s).p0Count =
        s.p0Count +
          (l.map (fun src =>
            src.issues.countP (fun issue => decide (issue.priority = 0)))).sum := by
  induction l with
  | nil => intro s; simp
  | cons src l ih =>
      intro s
      simp only [List.foldl_cons, ih, addSource_p0, List.map_cons, List.sum_cons]
      omega

lemma foldl_addSource_p1 (l : List BlockedSource) :
    ∀ s : BlockedSummary,
      (l.foldl addSource s).p1Count =
        s.p1Count +
          (l.map (fun src =>
            src.issues.countP (fun issue => decide (issue.priority = 1)))).sum := by
  induction l with
  | nil => intro s; simp
  | cons src l ih =>
      intro s
      simp only [List.foldl_cons, ih, addSource_p1, List.map_cons, List.sum_cons]
      omega

lemma foldl_addSource_p2 (l : List BlockedSource) :
    ∀ s : BlockedSummary,
      (l.foldl addSource s).p2Count =
        s.p2Count +
          (l.map (fun src =>
            src.issues.countP (fun issue => decide (issue.priority = 2)))).sum := by
  induction l with
  | nil => intro s; simp
  | cons src l ih =>
      intro s
      simp only [List.foldl_cons, ih, addSource_p2, List.map_cons, List.sum_cons]
      omega

lemma foldl_addSource_p3 (l : List BlockedSource) :
    ∀ s : BlockedSummary,
      (l.foldl addSource s).p3Count =
        s.p3Count +
          (l.map (fun src =>
            src.issues.countP (fun issue => decide (issue.priority = 3)))).sum := by
  induction l with
  | nil => intro s; simp
  | cons src l ih =>
      intro s
      simp only [List.foldl_cons, ih, addSource_p3, List.map_cons, List.sum_cons]
      omega

lemma foldl_addSource_p4 (l : List BlockedSource) :
    ∀ s : BlockedSummary,
      (l.foldl addSource s).p4Count =
        s.p4Count +
          (l.map (fun src =>
            src.issues.countP (fun issue => decide (issue.priority = 4)))).sum := by
  induction l with
  | nil => intro s; simp
  | cons src l ih =>
      intro s
      simp only [List.foldl_cons, ih, addSource_p4, List.map_cons, List.sum_cons]
      omega

lemma computeSummary_total (l : List BlockedSource) :
    (computeSummary l).total = (l.map (fun src => src.issues.length)).sum := by
  simp [computeSummary, foldl_addSource_total, emptySummary]

lemma allIssues_length (l : List BlockedSource) :
    (allIssues l).length = (l.map (fun src => src.issues.length)).sum := by
  simp [allIssues, List.length_flatten, List.map_map]
  rfl

lemma allIssues_countP (l : List BlockedSource) (p : Issue → Bool) :
    (allIssues l).countP p = (l.map (fun src => src.issues.countP p)).sum := by
  simp [allIssues, List.countP_flatten, List.map_map]
  rfl

lemma countP_priority_buckets_le (l : List Issue) :
    l.countP (fun issue => decide (issue.priority = 0)) +
      l.countP (fun issue => decide (issue.priority = 1)) +
      l.countP (fun issue => decide (issue.priority = 2)) +
      l.countP (fun issue => decide (issue.priority = 3)) +
      l.countP (fun issue => decide (issue.priority = 4)) ≤ l.length := by
  induction l with
  | nil => simp
  | cons i l ih =>
      simp only [List.countP_cons, decide_eq_true_eq, List.length_cons]
      split_ifs <;> omega

/-- Claim C4: each of the five priority-bucket counters counts exactly the
items whose priority equals that bucket's value; the total counts every
item, so items with priority outside `[0,4]` are in the total (and in
their source's count, see C10) but in no bucket, and the buckets sum to at
most the total. -/
theorem c4_priority_buckets_exact :
    ∀ sources : List BlockedSource,
      (computeSummary sources).p0Count =
        (allIssues sources).countP (fun issue => decide (issue.priority = 0)) ∧
      (computeSummary sources).p1Count =
        (allIssues sources).countP (fun issue => decide (issue.priority = 1)) ∧
      (computeSummary sources).p2Count =
        (allIssues sources).countP (fun issue => decide (issue.priority = 2)) ∧
      (computeSummary sources).p3Count =
        (allIssues sources).countP (fun issue => decide (issue.priority = 3)) ∧
      (computeSummary sources).p4Count =
        (allIssues sources).countP (fun issue => decide (issue.priority = 4)) ∧
      (computeSummary sources).total = (allIssues sources).length ∧
      (computeSummary sources).p0Count + (computeSummary sources).p1Count +
          (computeSummary sources).p2Count + (computeSummary sources).p3Count +
          (computeSummary sources).p4Count ≤ (computeSummary sources).total := by
  intro sources
  have h0 : (computeSummary sources).p0Count =
      (allIssues sources).countP (fun issue => decide (issue.priority = 0)) := by
    simp [computeSummary, foldl_addSource_p0, emptySummary, allIssues_countP]
  have h1 : (computeSummary sources).p1Count =
      (allIssues sources).countP (fun issue => decide (issue.priority = 1)) := by
    simp [computeSummary, foldl_addSource_p1, emptySummary, allIssues_countP]
  have h2 : (computeSummary sources).p2Count =
      (allIssues sources).countP (fun issue => decide (issue.priority = 2)) := by
    simp [computeSummary, foldl_addSource_p2, emptySummary, allIssues_countP]
  have h3 : (computeSummary sources).p3Count =
      (allIssues sources).countP (fun issue => decide (issue.priority = 3)) := by
    simp [computeSummary, foldl_addSource_p3, emptySummary, allIssues_countP]
  have h4 : (computeSummary sources).p4Count =
      (allIssues sources).countP (fun issue => decide (issue.priority = 4)) := by
    simp [computeSummary, foldl_addSource_p4, emptySummary, allIssues_countP]
  have ht : (computeSummary sources).total = (allIssues sources).length := by
    rw [computeSummary_total, allIssues_length]
  refine ⟨h0, h1, h2, h3, h4, ht, ?_⟩
  rw [h0, h1, h2, h3, h4, ht]
  exact countP_priority_buckets_le (allIssues sources)

/-! ### Association-list map lemmas -/

lemma lookupName_mapInsert (m : List (String × Nat)) (k : String) (v : Nat)
    (n : String) :
    lookupName (mapInsert m k v) n = if n = k then some v else lookupName m n := by
  induction m with
  | nil =>
      simp only [mapInsert, lookupName, beq_iff_eq]
      split_ifs <;> simp_all
  | cons p m ih =>
      obtain ⟨k', v'⟩ := p
      simp only [mapInsert, lookupName, beq_iff_eq]
      split_ifs <;> simp_all [lookupName, beq_iff_eq]

lemma lookupName_isSome_foldl_insert (l : List BlockedSource) :
    ∀ (m : List (String × Nat)) (n : String),
      (lookupName
          (l.foldl (fun acc src => mapInsert acc src.name src.issues.length) m)
          n).isSome = true ↔
        (lookupName m n).isSome = true ∨ n ∈ l.map (fun s => s.name) := by
  induction l with
  | nil => intro m n; simp
  | cons src l ih =>
      intro m n
      simp only [List.foldl_cons, ih, lookupName_mapInsert, List.map_cons,
        List.mem_cons]
      by_cases h : n = src.name <;> simp [h]

lemma lookupName_foldl_insert_of_not_mem (l : List BlockedSource) :
    ∀ (m : List (String × Nat)) (n : String),
      n ∉ l.map (fun s => s.name) →
      lookupName
          (l.foldl (fun acc src => mapInsert acc src.name src.issues.length) m)
          n = lookupName m n := by
  induction l with
  | nil => intro m n _; rfl
  | cons src l ih =>
      intro m n hn
      simp only [List.map_cons, List.mem_cons, not_or] at hn
      simp only [List.foldl_cons, ih _ _ hn.2, lookupName_mapInsert, hn.1,
        if_false]

lemma foldl_addSource_bySource (l : List BlockedSource) :
    ∀ s : BlockedSummary,
      (l.foldl addSource s).bySource =
        l.foldl (fun acc src => mapInsert acc src.name src.issues.length)
          s.bySource := by
  induction l with
  | nil => intro s; rfl
  | cons src l ih =>
      intro s
      simp only [List.foldl_cons, ih, addSource_bySource]

lemma computeSummary_bySource (l : List BlockedSource) :
    (computeSummary l).bySource =
      l.foldl (fun acc src => mapInsert acc src.name src.issues.length) [] := by
  simp [computeSummary, foldl_addSource_bySource, emptySummary]

lemma computeSummary_lookup_isSome (l : List BlockedSource) (n : String) :
    (lookupName (computeSummary l).bySource n).isSome = true ↔
      n ∈ l.map (fun s => s.name) := by
  rw [computeSummary_bySource, lookupName_isSome_foldl_insert]
  simp [lookupName]

lemma lookupName_foldl_insert_of_nodup (l : List BlockedSource) :
    ∀ m : List (String × Nat),
      (l.map (fun s => s.name)).Nodup →
      ∀ src ∈ l,
        lookupName
            (l.foldl (fun acc src => mapInsert acc src.name src.issues.length) m)
            src.name = some src.issues.length := by
  induction l with
  | nil => intro m _ src hsrc; cases hsrc
  | cons src' l ih =>
      intro m hnodup src hsrc
      simp only [List.map_cons, List.nodup_cons] at hnodup
      rcases List.mem_cons.mp hsrc with h | h
      · subst h
        simp only [List.foldl_cons]
        rw [lookupName_foldl_insert_of_not_mem l _ _ hnodup.1,
          lookupName_mapInsert]
        simp
      · simp only [List.foldl_cons]
        exact ih _ hnodup.2 src h

lemma computeSummary_lookup_of_nodup (l : List BlockedSource)
    (hnodup : (l.map (fun s => s.name)).Nodup) :
    ∀ src ∈ l,
      lookupName (computeSummary l).bySource src.name =
        some src.issues.length := by
  rw [computeSummary_bySource]
  exact lookupName_foldl_insert_of_nodup l [] hnodup

/-! ### Structure of a `RunBlocked` execution -/

lemma forall₂_mem_right {α β : Type} {R : α → β → Prop} :
    ∀ {l₁ : List α} {l₂ : List β}, List.Forall₂ R l₁ l₂ →
      ∀ {b : β}, b ∈ l₂ → ∃ a, a ∈ l₁ ∧ R a b := by
  intro l₁ l₂ h
  induction h with
  | nil => intro b hb; cases hb
  | cons hR _ ih =>
      intro b hb
      rcases List.mem_cons.mp hb with h | h
      · subst h; exact ⟨_, List.mem_cons_self _ _, hR⟩
      · rcases ih h with ⟨a, ha, hab⟩
        exact ⟨a, List.mem_cons_of_mem _ ha, hab⟩

lemma forall₂_issuesSortRel_names :
    ∀ {l₁ l₂ : List BlockedSource}, List.Forall₂ IssuesSortRel l₁ l₂ →
      l₂.map (fun s => s.name) = l₁.map (fun s => s.name) := by
  intro l₁ l₂ h
  induction h with
  | nil => rfl
  | cons hR _ ih => simp [ih, hR.1]

lemma mkSource_name (isScaffold : List String → String → Bool)
    (name : String) (qd : QueryData) :
    (mkSource isScaffold name qd).name = name := by
  unfold mkSource
  cases qd.blocked <;> rfl

lemma mkSource_error_issues (isScaffold : List String → String → Bool)
    (name : String) (qd : QueryData) :
    (mkSource isScaffold name qd).error ≠ "" →
    (mkSource isScaffold name qd).issues = [] := by
  unfold mkSource
  cases qd.blocked <;> simp

lemma launchedSources_mkSource (isScaffold : List String → String → Bool)
    (townQD : QueryData) (selected : List RigData) (rigFilter : String) :
    ∀ src ∈ launchedSources isScaffold townQD selected rigFilter,
      ∃ n qd, src = mkSource isScaffold n qd := by
  intro src hsrc
  rcases List.mem_append.mp hsrc with h | h
  · by_cases hf : rigFilter = ""
    · simp only [launchedSources, hf, if_true] at h
      rcases List.mem_singleton.mp h with h
      exact ⟨townName, townQD, h⟩
    · simp [hf] at h
  · rcases List.mem_map.mp h with ⟨r, _, hr⟩
    exact ⟨r.name, r.data, hr.symm⟩

lemma runBlocked_error_issues_empty
    {isScaffold : List String → String → Bool} {townQD : QueryData}
    {rigs : List RigData} {rigFilter townRoot : String}
    {result : BlockedResult}
    (hrun : RunBlocked isScaffold townQD rigs rigFilter townRoot result) :
    ∀ src ∈ result.sources, src.error ≠ "" → src.issues = [] := by
  obtain ⟨selected, gathered, sortedSources, _, hperm, hsort, hforall, _, _⟩ := hrun
  intro src hsrc herr
  obtain ⟨s, hs, hrel⟩ := forall₂_mem_right hforall hsrc
  have hsg : s ∈ gathered := (hsort.1.mem_iff).mpr hs
  have hsl : s ∈ launchedSources isScaffold townQD selected rigFilter :=
    (hperm.mem_iff).mpr hsg
  obtain ⟨n, qd, hmk⟩ := launchedSources_mkSource _ _ _ _ s hsl
  have hse : s.error ≠ "" := by rw [← hrel.2.1]; exact herr
  have hsi : s.issues = [] := by
    rw [hmk] at hse ⊢
    exact mkSource_error_issues _ _ _ hse
  have hpermIssues : List.Perm s.issues src.issues := hrel.2.2.1
  rw [hsi] at hpermIssues
  exact (List.Perm.nil_eq hpermIssues).symm

lemma runBlocked_summary
    {isScaffold : List String → String → Bool} {townQD : QueryData}
    {rigs : List RigData} {rigFilter townRoot : String}
    {result : BlockedResult}
    (hrun : RunBlocked isScaffold townQD rigs rigFilter townRoot result) :
    result.summary = computeSummary result.sources := by
  obtain ⟨_, _, _, _, _, _, _, h, _⟩ := hrun
  exact h

lemma sum_filter_nonerror (l : List BlockedSource)
    (h : ∀ s ∈ l, s.error ≠ "" → s.issues = []) :
    ((l.filter (fun s => s.error == "")).map (fun s => s.issues.length)).sum =
      (l.map (fun s => s.issues.length)).sum := by
  induction l with
  | nil => rfl
  | cons s l ih =>
      have hs := h s (List.mem_cons_self s l)
      have htail : ∀ x ∈ l, x.error ≠ "" → x.issues = [] :=
        fun x hx => h x (List.mem_cons_of_mem s hx)
      by_cases he : s.error = ""
      · simp [List.filter_cons, he, ih htail]
      · have : s.issues = [] := hs he
        simp [List.filter_cons, beq_eq_false_iff_ne.mpr he, ih htail, this]

/-- Claim C1: in every aggregate report, the summary's total equals the sum
of the issue-list lengths over the sources with no error; an errored source
has an empty (Go `nil`) issue list and contributes zero. -/
theorem c1_total_sums_nonerrored
    {isScaffold : List String → String → Bool} {townQD : QueryData}
    {rigs : List RigData} {rigFilter townRoot : String}
    {result : BlockedResult}
    (hrun : RunBlocked isScaffold townQD rigs rigFilter townRoot result) :
    result.summary.total =
      ((result.sources.filter (fun s => s.error == "")).map
        (fun s => s.issues.length)).sum := by
  rw [runBlocked_summary hrun, computeSummary_total]
  exact (sum_filter_nonerror result.sources
    (runBlocked_error_issues_empty hrun)).symm

/-- Claim C10: the summary's by-source map has an entry for exactly the
source names appearing in the report; with pairwise-distinct source names
every source (errored ones included) maps to its issue count, and an
errored source maps to 0. -/
theorem c10_by_source_domain
    {isScaffold : List String → String → Bool} {townQD : QueryData}
    {rigs : List RigData} {rigFilter townRoot : String}
    {result : BlockedResult}
    (hrun : RunBlocked isScaffold townQD rigs rigFilter townRoot result) :
    (∀ n : String,
      (lookupName result.summary.bySource n).isSome = true ↔
        n ∈ result.sources.map (fun s => s.name)) ∧
    ((result.sources.map (fun s => s.name)).Nodup →
      ∀ src ∈ result.sources,
        lookupName result.summary.bySource src.name =
          some src.issues.length ∧
        (src.error ≠ "" →
          lookupName result.summary.bySource src.name = some 0)) := by
  have hsummary := runBlocked_summary hrun
  constructor
  · intro n
    rw [hsummary]
    exact computeSummary_lookup_isSome result.sources n
  · intro hnodup src hsrc
    have h1 : lookupName result.summary.bySource src.name =
        some src.issues.length := by
      rw [hsummary]
      exact computeSummary_lookup_of_nodup result.sources hnodup src hsrc
    refine ⟨h1, fun herr => ?_⟩
    have h2 := runBlocked_error_issues_empty hrun src hsrc herr
    rw [h1, h2]
    rfl

/-! ### A concrete execution, used by the witnesses -/

/-- A trivial scaffold-naming convention (no identifier matches). -/
def noScaffold : List String → String → Bool := fun _ _ => false

def issueA : Issue := { id := "gt-001", title := "fix pump", priority := 1, blockedBy := [] }

def issueB : Issue := { id := "gt-002", title := "oil line", priority := 0, blockedBy := ["gt-001"] }

def townQD0 : QueryData :=
  { blocked := Except.ok [issueA, issueB], formulaNames := [], wispIDs := [] }

def rigA0 : RigData :=
  { name := "alpha"
    data := { blocked := Except.error "boom", formulaNames := [], wispIDs := [] } }

def townSrc0 : BlockedSource := { name := townName, issues := [issueA, issueB], error := "" }

def alphaSrc0 : BlockedSource := { name := "alpha", issues := [], error := "boom" }

def townSorted0 : BlockedSource := { name := townName, issues := [issueB, issueA], error := "" }

def result0 : BlockedResult :=
  { sources := [townSorted0, alphaSrc0]
    summary := computeSummary [townSorted0, alphaSrc0]
    townRoot := "/gt" }

/-- A complete concrete execution: the town query returned two issues, the
rig query failed, and the rig's result arrived first. -/
lemma run0 : RunBlocked noScaffold townQD0 [rigA0] "" "/gt" result0 := by
  refine ⟨[rigA0], [alphaSrc0, townSrc0], [townSrc0, alphaSrc0], rfl, ?_, ?_, ?_, rfl, rfl⟩
  · decide
  · decide
  · exact List.Forall₂.cons ⟨rfl, rfl, by decide⟩
      (List.Forall₂.cons ⟨rfl, rfl, by decide⟩ List.Forall₂.nil)

theorem c1_witness :
    result0.summary.total =
      ((result0.sources.filter (fun s => s.error == "")).map
        (fun s => s.issues.length)).sum :=
  c1_total_sums_nonerrored run0

theorem c10_witness :
    ((lookupName result0.summary.bySource "alpha").isSome = true ↔
      "alpha" ∈ result0.sources.map (fun s => s.name)) ∧
    lookupName result0.summary.bySource alphaSrc0.name = some 0 :=
  ⟨(c10_by_source_domain run0).1 "alpha",
    ((c10_by_source_domain run0).2 (by decide) alphaSrc0 (by decide)).2
      (by decide)⟩

/-! ### Source ordering (claim C2) -/

/-- The source comparator acts only on names; `nameLess` is its name-level
restatement. -/
def nameLess (a b : String) : Bool :=
  if a == townName then true
  else if b == townName then false
  else decide (a < b)

lemma sourceLess_eq_nameLess (a b : BlockedSource) :
    sourceLess a b = nameLess a.name b.name := rfl

lemma chain_names_of_sorted {l : List BlockedSource}
    (h : SortedByLess sourceLess l) :
    List.Chain' (fun a b : String => nameLess b a = false)
      (l.map (fun s => s.name)) := by
  rw [List.chain'_map]
  exact h

lemma no_town_after {n : String} {ns : List String}
    (h : List.Chain' (fun a b : String => nameLess b a = false) (n :: ns))
    (hn : n ≠ townName) :
    ∀ m ∈ ns, m ≠ townName := by
  induction ns generalizing n with
  | nil => intro m hm; cases hm
  | cons m ms ih =>
      have h1 : nameLess m n = false := (List.chain'_cons.mp h).1
      have h2 := (List.chain'_cons.mp h).2
      have hm : m ≠ townName := by
        intro he
        rw [he] at h1
        simp [nameLess] at h1
      intro x hx
      rcases List.mem_cons.mp hx with h | h
      · rw [h]; exact hm
      · exact ih h2 hm x h

lemma head_town {l : List String}
    (hchain : List.Chain' (fun a b : String => nameLess b a = false) l)
    (ht : townName ∈ l) : l.head? = some townName := by
  cases l with
  | nil => cases ht
  | cons n ns =>
      by_cases hn : n = townName
      · rw [hn]; rfl
      · rcases List.mem_cons.mp ht with h | h
        · exact absurd h.symm hn
        · exact absurd rfl (no_town_after hchain hn townName h)

lemma chain_le_of_no_town {l : List String}
    (h : List.Chain' (fun a b : String => nameLess b a = false) l)
    (hnt : ∀ m ∈ l, m ≠ townName) :
    List.Chain' (fun a b : String => a ≤ b) l := by
  induction l with
  | nil => trivial
  | cons n ns ih =>
      cases ns with
      | nil => simp
      | cons m ms =>
          rw [List.chain'_cons] at h ⊢
          have hn : n ≠ townName := hnt n (List.mem_cons_self n _)
          have hm : m ≠ townName :=
            hnt m (List.mem_cons_of_mem n (List.mem_cons_self m ms))
          refine ⟨?_, ih h.2 (fun x hx => hnt x (List.mem_cons_of_mem n hx))⟩
          have h1 := h.1
          simp only [nameLess, beq_iff_eq, hm, hn, if_false,
        decide_eq_false_iff_not] at h1
          exact le_of_not_lt h1

lemma pairwise_filter_non_town {l : List String}
    (hchain : List.Chain' (fun a b : String => nameLess b a = false) l)
    (hcount : l.countP (fun n => n == townName) ≤ 1) :
    List.Pairwise (fun a b : String => a ≤ b)
      (l.filter (fun n => !(n == townName))) := by
  cases l with
  | nil => simp
  | cons n ns =>
      by_cases hn : n = townName
      · have h0 : ns.countP (fun m => m == townName) = 0 := by
          rw [hn, List.countP_cons] at hcount
          simp only [beq_self_eq_true, if_true] at hcount
          omega
        have hnt : ∀ m ∈ ns, m ≠ townName := by
          intro m hm he
          have := List.countP_eq_zero.mp h0 m hm
          rw [he] at this
          simp at this
        have htail : List.Chain' (fun a b : String => nameLess b a = false) ns :=
          (List.chain'_cons'.mp hchain).2
        have hfe : ns.filter (fun m => !(m == townName)) = ns :=
          List.filter_eq_self.mpr (by intro m hm; simp [hnt m hm])
        rw [hn, List.filter_cons]
        simp only [beq_self_eq_true, Bool.not_true, if_false, hfe]
        exact List.chain'_iff_pairwise.mp (chain_le_of_no_town htail hnt)
      · have hall : ∀ m ∈ n :: ns, m ≠ townName := by
          intro m hm
          rcases List.mem_cons.mp hm with h | h
          · rw [h]; exact hn
          · exact no_town_after hchain hn m h
        have hfe : (n :: ns).filter (fun m => !(m == townName)) = n :: ns :=
          List.filter_eq_self.mpr (by intro m hm; simp [hall m hm])
        rw [hfe]
        exact List.chain'_iff_pairwise.mp (chain_le_of_no_town hchain hall)

/-- Claim C2: in every aggregate report (whatever the completion order of
the concurrent queries, which is quantified as an arbitrary permutation),
the source named "town", when present (and unique), is first, and the
remaining sources appear in ascending name order. -/
theorem c2_source_order
    {isScaffold : List String → String → Bool} {townQD : QueryData}
    {rigs : List RigData} {rigFilter townRoot : String}
    {result : BlockedResult}
    (hrun : RunBlocked isScaffold townQD rigs rigFilter townRoot result)
    (htown : (result.sources.map (fun s => s.name)).countP
      (fun n => n == townName) ≤ 1) :
    (townName ∈ result.sources.map (fun s => s.name) →
      (result.sources.map (fun s => s.name)).head? = some townName) ∧
    List.Pairwise (fun a b : String => a ≤ b)
      ((result.sources.map (fun s => s.name)).filter
        (fun n => !(n == townName))) := by
  obtain ⟨sel, gath, sorted, _, hperm, hsort, hforall, _, _⟩ := hrun
  have hnames : result.sources.map (fun s => s.name) =
      sorted.map (fun s => s.name) := forall₂_issuesSortRel_names hforall
  have hchain := chain_names_of_sorted hsort.2
  rw [hnames] at htown ⊢
  exact ⟨fun ht => head_town hchain ht, pairwise_filter_non_town hchain htown⟩

theorem c2_witness :
    (townName ∈ result0.sources.map (fun s => s.name) →
      (result0.sources.map (fun s => s.name)).head? = some townName) ∧
    List.Pairwise (fun a b : String => a ≤ b)
      ((result0.sources.map (fun s => s.name)).filter
        (fun n => !(n == townName))) :=
  c2_source_order run0 (by decide)

/-! ### Per-source item ordering (claim C3) -/

/-- Ties preserve the pre-sort relative order: any two equal-priority items
appearing in this order in `post` already appeared in this order in `pre`.
This is the stability property the spec asserts for the item sort. -/
def TiesPreserved (pre post : List Issue) : Prop :=
  ∀ x ∈ post, ∀ y ∈ post, x.priority = y.priority →
    List.Sublist [x, y] post → List.Sublist [x, y] pre

instance (pre post : List Issue) : Decidable (TiesPreserved pre post) :=
  inferInstanceAs (Decidable (∀ x ∈ post, ∀ y ∈ post,
    x.priority = y.priority →
      List.Sublist [x, y] post → List.Sublist [x, y] pre))

/-- Claim C3, amended: in every aggregate report each source's item list is
sorted in non-decreasing order of priority; the relative order of
equal-priority items is NOT guaranteed (the slice sort the code uses is
documented as unstable), see the counterexample. -/
theorem c3_amended_items_sorted
    {isScaffold : List String → String → Bool} {townQD : QueryData}
    {rigs : List RigData} {rigFilter townRoot : String}
    {result : BlockedResult}
    (hrun : RunBlocked isScaffold townQD rigs rigFilter townRoot result) :
    ∀ src ∈ result.sources,
      List.Pairwise (fun a b : Issue => a.priority ≤ b.priority) src.issues := by
  obtain ⟨_, _, sorted, _, _, _, hforall, _, _⟩ := hrun
  intro src hsrc
  obtain ⟨s, _, hrel⟩ := forall₂_mem_right hforall hsrc
  have hchain : List.Chain' (fun a b : Issue => issueLess b a = false)
      src.issues := hrel.2.2.2
  have hle : List.Chain' (fun a b : Issue => a.priority ≤ b.priority)
      src.issues := by
    refine List.Chain'.imp ?_ hchain
    intro a b h
    simp only [issueLess, decide_eq_false_iff_not] at h
    exact le_of_not_lt h
  have : IsTrans Issue (fun a b : Issue => a.priority ≤ b.priority) :=
    ⟨fun _ _ _ hab hbc => le_trans hab hbc⟩
  exact List.chain'_iff_pairwise.mp hle

theorem c3_witness :
    List.Pairwise (fun a b : Issue => a.priority ≤ b.priority)
      townSorted0.issues :=
  c3_amended_items_sorted run0 townSorted0 (by decide)

def issueC : Issue := { id := "gt-003", title := "rig door", priority := 1, blockedBy := [] }

def townQD1 : QueryData :=
  { blocked := Except.ok [issueA, issueC], formulaNames := [], wispIDs := [] }

def townSrc1 : BlockedSource := { name := townName, issues := [issueA, issueC], error := "" }

def townUnstable1 : BlockedSource := { name := townName, issues := [issueC, issueA], error := "" }

def result1 : BlockedResult :=
  { sources := [townUnstable1]
    summary := computeSummary [townUnstable1]
    townRoot := "/gt" }

/-- Claim C3, counterexample to stability: a legitimate execution (the town
query returned the equal-priority items `issueA` then `issueC`; the filter
pipeline keeps both; the item sort returns them reversed, which the unstable
slice-sort contract permits) whose report does not preserve the pipeline's
relative order of the equal-priority items. -/
theorem c3_counterexample :
    RunBlocked noScaffold townQD1 [] "" "/gt" result1 ∧
    ¬ TiesPreserved (pipeline noScaffold [] [] [issueA, issueC])
        townUnstable1.issues := by
  constructor
  · refine ⟨[], [townSrc1], [townSrc1], rfl, ?_, ?_, ?_, rfl, rfl⟩
    · decide
    · decide
    · exact List.Forall₂.cons ⟨rfl, rfl, by decide⟩ List.Forall₂.nil
  · decide

/-! ### Rig filtering (claims C6, C7) -/

lemma find?_of_filter_singleton {α : Type} (l : List α) (p : α → Bool) (r0 : α)
    (h : l.filter p = [r0]) : l.find? p = some r0 := by
  induction l with
  | nil => simp at h
  | cons a l ih =>
      by_cases hp : p a
      · rw [List.filter_cons_of_pos hp] at h
        injection h with h1 h2
        rw [List.find?_cons_of_pos _ hp, h1]
      · rw [List.filter_cons_of_neg hp] at h
        rw [List.find?_cons_of_neg _ hp]
        exact ih h

/-- Claim C6: a non-empty rig filter matching no discovered rig fails with
the "rig not found" error and admits no report at all (the failure happens
at selection, before any query); a filter matched by exactly one rig
reduces the selected list to that rig. -/
theorem c6_rig_filter
    (isScaffold : List String → String → Bool) (townQD : QueryData)
    (rigs : List RigData) (rigFilter townRoot : String)
    (hne : rigFilter ≠ "") :
    ((∀ r ∈ rigs, r.name ≠ rigFilter) →
      selectRigs rigs rigFilter =
        Except.error ("rig not found: " ++ rigFilter) ∧
      ∀ result : BlockedResult,
        ¬ RunBlocked isScaffold townQD rigs rigFilter townRoot result) ∧
    (∀ r0 : RigData, rigs.filter (fun r => r.name == rigFilter) = [r0] →
      selectRigs rigs rigFilter = Except.ok [r0]) := by
  constructor
  · intro hno
    have hfind : rigs.find? (fun r => r.name == rigFilter) = none :=
      List.find?_eq_none.mpr (fun r hr => by simp [hno r hr])
    have hsel : selectRigs rigs rigFilter =
        Except.error ("rig not found: " ++ rigFilter) := by
      unfold selectRigs
      rw [if_neg hne, hfind]
    refine ⟨hsel, ?_⟩
    intro result hrun
    obtain ⟨sel, _, _, hsel', _⟩ := hrun
    rw [hsel] at hsel'
    exact Except.noConfusion hsel'
  · intro r0 hfilter
    have hfind := find?_of_filter_singleton rigs _ r0 hfilter
    unfold selectRigs
    rw [if_neg hne, hfind]

theorem c6_witness :
    selectRigs [rigA0] "beta" = Except.error ("rig not found: " ++ "beta") ∧
    selectRigs [rigA0] "alpha" = Except.ok [rigA0] :=
  ⟨((c6_rig_filter noScaffold townQD0 [rigA0] "beta" "/gt" (by decide)).1
      (by decide)).1,
    (c6_rig_filter noScaffold townQD0 [rigA0] "alpha" "/gt" (by decide)).2
      rigA0 (by decide)⟩

/-- Claim C7: the town source is part of the report exactly when no rig
filter is active: with an empty filter a source named "town" always appears;
with a non-empty filter none does (provided, as in any sane deployment, no
rig is itself named "town", in which case a source by that name could come
from the rig). -/
theorem c7_town_iff_no_filter
    {isScaffold : List String → String → Bool} {townQD : QueryData}
    {rigs : List RigData} {rigFilter townRoot : String}
    {result : BlockedResult}
    (hrun : RunBlocked isScaffold townQD rigs rigFilter townRoot result) :
    (rigFilter = "" → townName ∈ result.sources.map (fun s => s.name)) ∧
    (rigFilter ≠ "" → (∀ r ∈ rigs, r.name ≠ townName) →
      townName ∉ result.sources.map (fun s => s.name)) := by
  obtain ⟨sel, gath, sorted, hsel, hperm, hsort, hforall, _, _⟩ := hrun
  have hnames : result.sources.map (fun s => s.name) =
      sorted.map (fun s => s.name) := forall₂_issuesSortRel_names hforall
  have hpermNames :
      List.Perm
        ((launchedSources isScaffold townQD sel rigFilter).map
          (fun s => s.name))
        (result.sources.map (fun s => s.name)) := by
    rw [hnames]
    exact (hperm.map _).trans (hsort.1.map _)
  constructor
  · intro hf
    apply hpermNames.mem_iff.mp
    subst hf
    simp [launchedSources, mkSource_name]
  · intro hf hno hmem
    have hmem' := hpermNames.mem_iff.mpr hmem
    unfold selectRigs at hsel
    rw [if_neg hf] at hsel
    cases hfind : rigs.find? (fun r => r.name == rigFilter) with
    | none =>
        rw [hfind] at hsel
        exact Except.noConfusion hsel
    | some r =>
        rw [hfind] at hsel
        injection hsel with hsel
        subst hsel
        have hr : r ∈ rigs := List.mem_of_find?_eq_some hfind
        simp [launchedSources, hf, mkSource_name] at hmem'
        exact hno r hr hmem'.symm

theorem c7_witness : townName ∈ result0.sources.map (fun s => s.name) :=
  (c7_town_iff_no_filter run0).1 rfl

/-! ### Title truncation in human mode (claim C8) -/

/-- Claim C8: in human-readable mode a title of 60 or fewer characters is
printed unchanged, and a longer title is replaced by its first 57
characters followed by the three-character ellipsis marker, for a total of
exactly 60 characters (strictly shorter than the original). -/
theorem c8_title_truncation :
    ∀ title : String,
      (title.length ≤ 60 → truncateTitle title = title) ∧
      (title.length > 60 →
        (truncateTitle title).length = 60 ∧
        (truncateTitle title).length < title.length ∧
        (truncateTitle title).data.take 57 = title.data.take 57 ∧
        (truncateTitle title).data.drop 57 = ['.', '.', '.']) := by
  intro title
  constructor
  · intro h
    unfold truncateTitle
    rw [if_neg (by omega)]
  · intro h
    have hdata : title.data.length = title.length := rfl
    have h57 : (title.data.take 57).length = 57 := by
      rw [List.length_take, hdata]
      omega
    have hdots : ("..." : String).length = 3 := rfl
    unfold truncateTitle
    rw [if_pos h]
    refine ⟨?_, ?_, ?_, ?_⟩
    · rw [String.length_append, String.length_mk, h57, hdots]
    · rw [String.length_append, String.length_mk, h57, hdots]
      omega
    · rw [String.data_append]
      exact List.take_left' h57
    · rw [String.data_append]
      rw [List.drop_left' h57]

def longTitle0 : String :=
  "refit the northern pumping array before the convoy returns to gastown"

theorem c8_witness :
    truncateTitle "pump" = "pump" ∧
    (truncateTitle longTitle0).length = 60 ∧
    (truncateTitle longTitle0).data.drop 57 = ['.', '.', '.'] :=
  ⟨(c8_title_truncation "pump").1 (by decide),
    ((c8_title_truncation longTitle0).2 (by decide)).1,
    ((c8_title_truncation longTitle0).2 (by decide)).2.2.2⟩

end Gastown
